import Mathlib

/-!
Shallow embedding of the FitQuest game core from `src/Run Website/server.js`
(two near-identical server variants; the game logic is identical in both).
JavaScript numbers on these code paths only ever hold integer values, so all
numeric fields are modelled as `Int`; `Math.floor(x / n)` is `Int.fdiv`.
Fallible endpoints return the (possibly updated) in-memory player record
together with an `Except` describing the HTTP-visible outcome, mirroring the
mutable Mongoose document plus the JSON response.
-/

namespace FitQuest

/-- Substring test on character lists: does `pat` occur as a prefix of `s`? -/
def isPrefixChars : List Char → List Char → Bool
  | [], _ => true
  | _ :: _, [] => false
  | a :: as, b :: bs => a == b && isPrefixChars as bs

/-- Substring containment on character lists, the semantics of JavaScript
`String.prototype.includes`. -/
def containsChars (pat : List Char) : List Char → Bool
  | [] => isPrefixChars pat []
  | c :: rest => isPrefixChars pat (c :: rest) || containsChars pat rest

/-- JavaScript `s.includes(pat)`. -/
def strIncludes (s pat : String) : Bool := containsChars pat.data s.data

/-- JavaScript `s.toLowerCase()`: lowercase every character. -/
def toLowerStr (s : String) : String := ⟨s.data.map Char.toLower⟩

/-- JavaScript `s.toLowerCase().includes(pat)` as used throughout the source
(the patterns are already lowercase literals). -/
def lowerIncludes (s pat : String) : Bool := strIncludes (toLowerStr s) pat

/-- Stats sub-document of the user schema. -/
structure Stats where
  strength : Int
  stamina : Int
  agility : Int
  health : Int
  deriving DecidableEq

/-- Reward sub-document of quests and enemies. -/
structure Reward where
  xp : Int
  gold : Int
  deriving DecidableEq

/-- Quest type enum from the quest schema. -/
inductive QuestType where
  | workout
  | hydration
  | boss
  deriving DecidableEq

/-- Quest schema. -/
structure Quest where
  title : String
  description : String
  type : QuestType
  requirement : Int
  reward : Reward
  completed : Bool
  deriving DecidableEq

/-- Battle schema. The `date` field is only used for display sorting and is
omitted; list order is creation order, as in the Mongoose array. -/
structure Battle where
  enemyName : String
  enemyHP : Int
  enemyMaxHP : Int
  enemyDamage : Int
  userHP : Int
  userMaxHP : Int
  completed : Bool
  victory : Bool
  fled : Bool
  deriving DecidableEq

/-- One logged workout entry. -/
structure Workout where
  name : String
  reps : Int
  weight : Int
  xp : Int
  deriving DecidableEq

/-- One water-intake entry (date is the calendar-day string key). -/
structure WaterEntry where
  date : String
  cups : Int
  deriving DecidableEq

/-- The player record: the game-relevant fields of the user schema. -/
structure Player where
  stats : Stats
  level : Int
  xp : Int
  gold : Int
  waterIntake : List WaterEntry
  workouts : List Workout
  activeQuests : List Quest
  completedQuests : List Quest
  battles : List Battle
  deriving DecidableEq

/-- Enemy catalog entry; `reward` is optional to reflect that the attack code
guards `enemy.reward || { xp: 50, gold: 25 }`. -/
structure Enemy where
  name : String
  hp : Int
  damage : Int
  reward : Option Reward
  description : String
  deriving DecidableEq

/-- First catalog enemy, also the fallback `ENEMIES[0]` in the attack code. -/
def enemy0 : Enemy :=
  { name := "The Lazy Dragon", hp := 50, damage := 8,
    reward := some ⟨100, 50⟩, description := "A sleepy dragon that hates exercise!" }

def enemy1 : Enemy :=
  { name := "Procrastination Golem", hp := 80, damage := 12,
    reward := some ⟨150, 75⟩, description := "A creature made of excuses and delays" }

def enemy2 : Enemy :=
  { name := "Motivation Slayer", hp := 120, damage := 15,
    reward := some ⟨200, 100⟩, description := "Drains your will to workout" }

def enemy3 : Enemy :=
  { name := "Couch Potato Titan", hp := 150, damage := 18,
    reward := some ⟨250, 125⟩, description := "A titan made of laziness and snacks" }

/-- The ENEMIES catalog. -/
def ENEMIES : List Enemy := [enemy0, enemy1, enemy2, enemy3]

/-- The QUESTS catalog. -/
def QUESTS : List Quest :=
  [ { title := "First Steps",
      description := "Complete 10 squats to strengthen your legs",
      type := .workout, requirement := 10, reward := ⟨50, 25⟩, completed := false },
    { title := "Hydration Hero",
      description := "Drink 4 cups of water today",
      type := .hydration, requirement := 4, reward := ⟨30, 15⟩, completed := false },
    { title := "Push-up Power",
      description := "Complete 15 push-ups for upper body strength",
      type := .workout, requirement := 15, reward := ⟨75, 35⟩, completed := false } ]

/-- Caller-visible error outcomes (all map to HTTP 400 in the source). -/
inductive GameError where
  | healthTooLow
  | noActiveBattle
  | insufficientFunds
  deriving DecidableEq

/-- Level formula `Math.floor(xp / 100) + 1` used in log-workout and
battle-attack. -/
def levelOf (xp : Int) : Int := xp.fdiv 100 + 1

/-- The `calculateWorkoutXP` function. Note the source assigns (not adds to)
`bonus` on each matching substring, so later matches overwrite earlier ones. -/
def calculateWorkoutXP (name : String) (reps weight sets : Int) : Int :=
  let baseXP := (reps * weight * sets).fdiv 10 + 10
  let bonus : Int := 0
  let bonus := if lowerIncludes name "squat" then 5 else bonus
  let bonus := if lowerIncludes name "push" then 8 else bonus
  let bonus := if lowerIncludes name "plank" then 3 else bonus
  baseXP + bonus

/-- The POST log-water handler: add cups to the first entry for `today` (the
`find` in the source returns the first match and the handler mutates it), or
push a new entry; then add `Math.round(cups * 2)` xp. The level field is not
touched by this handler. -/
def logWaterEntries (today : String) (cups : Int) : List WaterEntry → List WaterEntry
  | [] => [⟨today, cups⟩]
  | e :: rest =>
    if e.date == today then { e with cups := e.cups + cups } :: rest
    else e :: logWaterEntries today cups rest

/-- The POST log-water endpoint on the player record. -/
def logWater (p : Player) (today : String) (cups : Int) : Player :=
  { p with waterIntake := logWaterEntries today cups p.waterIntake,
           xp := p.xp + 2 * cups }

/-- The POST log-workout endpoint. Appends a workout whose stored reps field
is `reps * sets`, adds the calculated xp, and raises the level to
`floor(xp / 100) + 1` when that exceeds the current level, applying one
stat-growth step keyed on the workout name. Returns the updated player and
the `leveledUp` flag. -/
def logWorkout (p : Player) (name : String) (reps weight sets : Int) :
    Player × Bool :=
  let xp := calculateWorkoutXP name reps weight sets
  let workouts := p.workouts ++ [⟨name, reps * sets, weight, xp⟩]
  let xpTotal := p.xp + xp
  let newLevel := levelOf xpTotal
  if newLevel > p.level then
    let stats :=
      if lowerIncludes name "squat" || lowerIncludes name "push" then
        { p.stats with strength := p.stats.strength + 2 }
      else if lowerIncludes name "plank" || lowerIncludes name "crunch" then
        { p.stats with stamina := p.stats.stamina + 2 }
      else
        { p.stats with agility := p.stats.agility + 2 }
    ({ p with workouts := workouts, xp := xpTotal, level := newLevel, stats := stats }, true)
  else
    ({ p with workouts := workouts, xp := xpTotal }, false)

/-- The battle pushed by POST battle-start for a chosen enemy. -/
def mkBattle (p : Player) (e : Enemy) : Battle :=
  { enemyName := e.name, enemyHP := e.hp, enemyMaxHP := e.hp,
    enemyDamage := e.damage, userHP := p.stats.health,
    userMaxHP := p.stats.health, completed := false, victory := false,
    fled := false }

/-- The POST battle-start endpoint. The random enemy choice is passed in as a
parameter. The only guard in the source is the low-health check; nothing
inspects the existing battles list. -/
def battleStart (p : Player) (e : Enemy) : Player × Except GameError Battle :=
  if p.stats.health ≤ 10 then
    (p, .error .healthTooLow)
  else
    ({ p with battles := p.battles ++ [mkBattle p e] }, .ok (mkBattle p e))

/-- The battle selected by POST battle-attack:
`user.battles.filter(b => !b.completed).pop()`, i.e. the last battle whose
completed flag is false. -/
def findLastActive : List Battle → Option Battle
  | [] => none
  | b :: rest =>
    match findLastActive rest with
    | some b2 => some b2
    | none => if b.completed then none else some b

/-- Replace the battle that `findLastActive` selects (the handler mutates that
array element in place). -/
def replaceLastActive (nb : Battle) : List Battle → List Battle
  | [] => []
  | b :: rest =>
    match findLastActive rest with
    | some _ => b :: replaceLastActive nb rest
    | none => if b.completed then b :: rest else nb :: rest

/-- Attack damage: `Math.floor((reps * (weight || 1)) / 10) + strength`. -/
def attackDamage (p : Player) (reps weight : Int) : Int :=
  (reps * (if weight == 0 then 1 else weight)).fdiv 10 + p.stats.strength

/-- Victory reward of an enemy: `enemy.reward || { xp: 50, gold: 25 }`. -/
def rewardOfEnemy (e : Enemy) : Reward := e.reward.getD ⟨50, 25⟩

/-- Reward granted for defeating the battle enemy named `enemyName`:
`ENEMIES.find(e => e.name === enemyName) || ENEMIES[0]`, then the reward
default. -/
def rewardFor (enemyName : String) : Reward :=
  rewardOfEnemy ((ENEMIES.find? (fun e => e.name == enemyName)).getD enemy0)

/-- Result payload of POST battle-attack. `result` is `some true` on victory,
`some false` on defeat, `none` while the battle stays active. -/
structure AttackOutcome where
  damageDealt : Int
  damageTaken : Int
  battle : Battle
  result : Option Bool
  deriving DecidableEq

/-- The POST battle-attack endpoint, mirroring the handler statement by
statement: damage is subtracted from enemyHP; the enemy counter-damage
(`enemyDamage || 10`) is subtracted from health; `battle.userHP` receives the
unclamped health; health and enemyHP are then clamped at 0; the victory check
(clamped enemyHP at most 0) precedes the defeat check (unclamped userHP at
most 0); on victory the enemy reward is added and a level-up check applies
the richer growth table. -/
def battleAttack (p : Player) (reps weight : Int) :
    Player × Except GameError AttackOutcome :=
  match findLastActive p.battles with
  | none => (p, .error .noActiveBattle)
  | some ab =>
    let baseDamage := attackDamage p reps weight
    let enemyHP1 := ab.enemyHP - baseDamage
    let enemyDamage := if ab.enemyDamage == 0 then 10 else ab.enemyDamage
    let health1 := p.stats.health - enemyDamage
    let health2 := if health1 < 0 then 0 else health1
    let enemyHP2 := if enemyHP1 < 0 then 0 else enemyHP1
    if enemyHP2 ≤ 0 then
      let ab2 := { ab with enemyHP := enemyHP2, userHP := health1,
                           completed := true, victory := true }
      let reward := rewardFor ab.enemyName
      let xpTotal := p.xp + reward.xp
      let newLevel := levelOf xpTotal
      let (level2, stats2) :=
        if newLevel > p.level then
          (newLevel,
           { strength := p.stats.strength + 2, stamina := p.stats.stamina + 2,
             agility := p.stats.agility + 1, health := health2 + 20 : Stats })
        else
          (p.level, { p.stats with health := health2 })
      ({ p with battles := replaceLastActive ab2 p.battles, stats := stats2,
                xp := xpTotal, gold := p.gold + reward.gold, level := level2 },
       .ok ⟨baseDamage, enemyDamage, ab2, some true⟩)
    else if health1 ≤ 0 then
      let ab2 := { ab with enemyHP := enemyHP2, userHP := health1,
                           completed := true, victory := false }
      ({ p with battles := replaceLastActive ab2 p.battles,
                stats := { p.stats with health := health2 } },
       .ok ⟨baseDamage, enemyDamage, ab2, some false⟩)
    else
      let ab2 := { ab with enemyHP := enemyHP2, userHP := health1 }
      ({ p with battles := replaceLastActive ab2 p.battles,
                stats := { p.stats with health := health2 } },
       .ok ⟨baseDamage, enemyDamage, ab2, none⟩)

/-- The POST battle-flee endpoint: looks at the LAST battle in the array
(`battles[battles.length - 1]`), not the last active one; errors if it is
absent or completed; otherwise marks it completed and fled and deducts a flat
5 health with no clamp. The ok payload is the healthLost value. -/
def battleFlee (p : Player) : Player × Except GameError Int :=
  match p.battles.getLast? with
  | none => (p, .error .noActiveBattle)
  | some b =>
    if b.completed then (p, .error .noActiveBattle)
    else
      ({ p with battles := p.battles.dropLast ++ [{ b with completed := true, fled := true }],
                stats := { p.stats with health := p.stats.health - 5 } },
       .ok 5)

/-- The POST shop buy-health endpoint: cost is `amount * 10`; errors when gold
is below cost; otherwise deducts the cost and adds `amount` health (uncapped). -/
def buyHealth (p : Player) (amount : Int) : Player × Except GameError Unit :=
  let cost := amount * 10
  if p.gold < cost then (p, .error .insufficientFunds)
  else
    ({ p with gold := p.gold - cost,
              stats := { p.stats with health := p.stats.health + amount } },
     .ok ())

/-- The GET quests endpoint: seed `activeQuests` with a copy of the catalog
when it is empty (the source copies each quest with a spread, which on pure
values is the identity), otherwise leave the player untouched; return the
active quests. -/
def getQuests (p : Player) : Player × List Quest :=
  if p.activeQuests.isEmpty then
    ({ p with activeQuests := QUESTS }, QUESTS)
  else
    (p, p.activeQuests)

/-- Workout-quest completion count from GET quests-progress: the sum of the
stored reps of every logged workout whose name contains squat
(case-insensitively). -/
def questWorkoutCompleted (workouts : List Workout) : Int :=
  workouts.foldl
    (fun total w => total + (if lowerIncludes w.name "squat" then w.reps else 0)) 0

/-- Completed count of one quest in GET quests-progress (progress itself is
`min(completed / requirement, 1)` in real division, a pure display value). -/
def questCompletedCount (p : Player) (today : String) (q : Quest) : Int :=
  match q.type with
  | .workout => questWorkoutCompleted p.workouts
  | .hydration =>
    match p.waterIntake.find? (fun e => e.date == today) with
    | some e => e.cups
    | none => 0
  | .boss => 0

/-- An active battle exists (spec notion used by the battle-start claim). -/
def hasActiveBattle (p : Player) : Bool := p.battles.any (fun b => !b.completed)

/-! Concrete records used by counterexamples and witnesses. -/

/-- Default stats of a freshly registered user. -/
def baseStats : Stats := ⟨5, 5, 5, 100⟩

/-- A freshly registered player record. -/
def basePlayer : Player :=
  { stats := baseStats, level := 1, xp := 0, gold := 100, waterIntake := [],
    workouts := [], activeQuests := [], completedQuests := [], battles := [] }

/-- Player one water-xp award away from the level-2 boundary. -/
def p99 : Player := { basePlayer with xp := 99 }

/-- An in-progress battle against the first catalog enemy. -/
def bAct : Battle :=
  { enemyName := "The Lazy Dragon", enemyHP := 50, enemyMaxHP := 50,
    enemyDamage := 8, userHP := 100, userMaxHP := 100, completed := false,
    victory := false, fled := false }

/-- Healthy player who already has an active battle. -/
def pActive : Player := { basePlayer with battles := [bAct] }

/-- Player at 3 health with an active battle (reachable: start at 11 health,
take one 8-damage counter). -/
def pLowHealth : Player :=
  { basePlayer with stats := { baseStats with health := 3 }, battles := [bAct] }

/-- Player whose active battle's enemy is one hit from death. -/
def pKill : Player := { basePlayer with battles := [{ bAct with enemyHP := 5 }] }

/-- Player with a single already-completed battle. -/
def pTerm : Player := { basePlayer with battles := [{ bAct with completed := true }] }

/-- Player who cannot afford a 5-point health purchase. -/
def pGold40 : Player := { basePlayer with gold := 40 }

/-- Player who can exactly afford a 5-point health purchase. -/
def pGold50 : Player := { basePlayer with gold := 50 }

/-- Player tripping every guard: low health, no battle, no gold. -/
def pBroke : Player :=
  { basePlayer with stats := { baseStats with health := 5 }, gold := 0 }

/-! Helper lemmas. -/

/-- The level formula in Euclidean-division form, omega-friendly. -/
theorem levelOf_eq (x : Int) : levelOf x = x / 100 + 1 := by
  rw [levelOf, Int.fdiv_eq_ediv _ (by norm_num)]

/-- The level formula is monotone in xp. -/
theorem levelOf_mono {x y : Int} (h : x ≤ y) : levelOf x ≤ levelOf y := by
  rw [levelOf_eq, levelOf_eq]
  omega

/-- The raise-only level update restores the level invariant whenever xp grows. -/
theorem level_update_eq {oldxp add oldlevel : Int} (h : oldlevel = levelOf oldxp)
    (hadd : 0 ≤ add) :
    (if oldlevel < levelOf (oldxp + add) then levelOf (oldxp + add) else oldlevel)
      = levelOf (oldxp + add) := by
  have hm := levelOf_mono (show oldxp ≤ oldxp + add by omega)
  split_ifs <;> omega

/-- Workout xp is nonnegative for nonnegative inputs. -/
theorem calculateWorkoutXP_nonneg (name : String) {reps weight sets : Int}
    (hr : 0 ≤ reps) (hw : 0 ≤ weight) (hs : 0 ≤ sets) :
    0 ≤ calculateWorkoutXP name reps weight sets := by
  have hp : 0 ≤ reps * weight * sets := mul_nonneg (mul_nonneg hr hw) hs
  simp only [calculateWorkoutXP, Int.fdiv_eq_ediv _ (by norm_num : (0:Int) ≤ 10)]
  split_ifs <;> omega

/-- Every catalog enemy's effective reward has nonnegative xp. -/
theorem enemy_reward_xp_nonneg {e : Enemy} (he : e ∈ ENEMIES) :
    0 ≤ (rewardOfEnemy e).xp := by
  fin_cases he <;> decide

/-- The victory reward's xp is nonnegative for any enemy name. -/
theorem rewardFor_xp_nonneg (s : String) : 0 ≤ (rewardFor s).xp := by
  unfold rewardFor
  cases h : ENEMIES.find? (fun e => e.name == s) with
  | none => decide
  | some e =>
    simpa using enemy_reward_xp_nonneg (List.mem_of_find?_eq_some h)

/-- The attack target selector only returns battles that are still active. -/
theorem findLastActive_not_completed :
    ∀ {bs : List Battle} {b : Battle}, findLastActive bs = some b →
      b.completed = false := by
  intro bs
  induction bs with
  | nil => intro b h; simp [findLastActive] at h
  | cons hd tl ih =>
    intro b h
    unfold findLastActive at h
    cases htl : findLastActive tl with
    | some b2 =>
      rw [htl] at h
      cases h
      exact ih htl
    | none =>
      rw [htl] at h
      by_cases hc : hd.completed
      · simp [hc] at h
      · simp [hc] at h
        subst h
        simpa using hc

/-- Appending one workout adds its squat-weighted reps to quest completion. -/
theorem questWorkoutCompleted_append (l : List Workout) (w : Workout) :
    questWorkoutCompleted (l ++ [w])
      = questWorkoutCompleted l
        + (if lowerIncludes w.name "squat" then w.reps else 0) := by
  unfold questWorkoutCompleted
  rw [List.foldl_append]
  simp

/-! Claim theorems. -/

/-- C2, counterexample: the battle-start handler does not reject a new battle
while one is active — a healthy player with an in-progress battle starts a
second one successfully, so the failure condition is not as claimed. -/
theorem C2_counterexample :
    hasActiveBattle pActive = true ∧
    (battleStart pActive enemy0).2 = Except.ok (mkBattle pActive enemy0) ∧
    (battleStart pActive enemy0).1.battles.length = 2 := by
  refine ⟨by decide, rfl, by decide⟩

/-- C2, amended: battle-start fails with the precondition error exactly when
health is at most 10, regardless of any existing active battle; at health 10
it fails, at health 11 it succeeds, appending the new battle. -/
theorem C2_amended (p : Player) (e : Enemy) :
    ((battleStart p e).2 = Except.error GameError.healthTooLow ↔ p.stats.health ≤ 10) ∧
    ((battleStart p e).1 =
      if p.stats.health ≤ 10 then p
      else { p with battles := p.battles ++ [mkBattle p e] }) := by
  by_cases h : p.stats.health ≤ 10 <;> simp [battleStart, h]

/-- C2 witness: at health 10 the start fails, at health 11 it succeeds. -/
theorem C2_witness :
    ((battleStart { basePlayer with stats := { baseStats with health := 10 } } enemy0).2
       = Except.error GameError.healthTooLow) ∧
    ¬ ((battleStart { basePlayer with stats := { baseStats with health := 11 } } enemy0).2
       = Except.error GameError.healthTooLow) := by
  constructor
  · exact (C2_amended { basePlayer with stats := { baseStats with health := 10 } } enemy0).1.mpr
      (by decide)
  · intro h
    exact absurd ((C2_amended { basePlayer with stats := { baseStats with health := 11 } } enemy0).1.mp h)
      (by decide)

/-- C3, counterexample: the bonuses do not accumulate — the source assigns
`bonus` anew on each match, so a name containing both squat and push earns
only the push bonus 8, not 13 as the claim computes. -/
theorem C3_counterexample :
    calculateWorkoutXP "squat push" 10 5 1 ≠ (10 * 5 * 1 : Int).fdiv 10 + 10 + (5 + 8) := by
  decide

/-- C3, amended: workout xp is floor(reps*weight*sets/10) + 10 + bonus where
the bonus is the LAST matching substring in evaluation order squat, push,
plank (later assignments overwrite earlier ones): plank gives 3, else push
gives 8, else squat gives 5, else 0. The concrete squat example still yields
20. -/
theorem C3_amended (name : String) (reps weight sets : Int) :
    calculateWorkoutXP name reps weight sets =
      (reps * weight * sets).fdiv 10 + 10 +
        (if lowerIncludes name "plank" then 3
         else if lowerIncludes name "push" then 8
         else if lowerIncludes name "squat" then 5 else 0) ∧
    calculateWorkoutXP "squat" 10 5 1 = 20 := by
  refine ⟨?_, by decide⟩
  unfold calculateWorkoutXP
  split_ifs with h1 h2 h3 <;> simp [h1]

/-- C7: buy-health charges amount * 10 gold, fails with the insufficient-funds
error exactly when gold is below the cost and then leaves the record alone,
and otherwise deducts the cost and adds the amount to health. -/
theorem C7_confirmed (p : Player) (amount : Int) :
    (p.gold < amount * 10 →
      buyHealth p amount = (p, Except.error GameError.insufficientFunds)) ∧
    (amount * 10 ≤ p.gold →
      buyHealth p amount =
        ({ p with gold := p.gold - amount * 10,
                  stats := { p.stats with health := p.stats.health + amount } },
         Except.ok ())) := by
  constructor
  · intro h
    simp [buyHealth, h]
  · intro h
    simp [buyHealth, not_lt.mpr h]

/-- C7 witness: gold 40 cannot afford amount 5 (cost 50); gold 50 buys it,
leaving 0 gold and 5 more health. -/
theorem C7_witness :
    buyHealth pGold40 5 = (pGold40, Except.error GameError.insufficientFunds) ∧
    (buyHealth pGold50 5).1.gold = 0 ∧
    (buyHealth pGold50 5).1.stats.health = pGold50.stats.health + 5 ∧
    (buyHealth pGold50 5).2 = Except.ok () := by
  refine ⟨(C7_confirmed pGold40 5).1 (by decide), ?_, ?_, ?_⟩
  all_goals rw [(C7_confirmed pGold50 5).2 (by decide)]
  all_goals decide

/-- C9: fetching quests seeds the full catalog when no active quests exist and
is otherwise the identity on the player, hence idempotent. -/
theorem C9_confirmed (p : Player) :
    (p.activeQuests = [] →
      (getQuests p).1 = { p with activeQuests := QUESTS } ∧ (getQuests p).2 = QUESTS) ∧
    (p.activeQuests ≠ [] → getQuests p = (p, p.activeQuests)) ∧
    (getQuests (getQuests p).1).1 = (getQuests p).1 := by
  by_cases he : p.activeQuests = []
  · refine ⟨fun _ => ?_, fun hne => absurd he hne, ?_⟩
    · simp [getQuests, he]
    · simp [getQuests, he, QUESTS]
  · refine ⟨fun he2 => absurd he2 he, fun _ => ?_, ?_⟩
    · simp [getQuests, List.isEmpty_iff, he]
    · simp [getQuests, List.isEmpty_iff, he]

/-- C9 witness: seeding an empty quest list, then re-fetching, changes
nothing; a non-empty list is never reseeded. -/
theorem C9_witness :
    (getQuests basePlayer).1.activeQuests = QUESTS ∧
    (getQuests (getQuests basePlayer).1).1 = (getQuests basePlayer).1 := by
  refine ⟨?_, (C9_confirmed basePlayer).2.2⟩
  rw [((C9_confirmed basePlayer).1 (by decide)).1]

/-- C10: log-workout stores reps * sets in the appended workout record, so a
squat-named workout advances workout-quest completion by reps * sets. -/
theorem C10_confirmed (p : Player) (name : String) (reps weight sets : Int) :
    (logWorkout p name reps weight sets).1.workouts
      = p.workouts ++ [⟨name, reps * sets, weight,
                        calculateWorkoutXP name reps weight sets⟩] ∧
    (lowerIncludes name "squat" = true →
      questWorkoutCompleted (logWorkout p name reps weight sets).1.workouts
        = questWorkoutCompleted p.workouts + reps * sets) := by
  have happ : (logWorkout p name reps weight sets).1.workouts
      = p.workouts ++ [⟨name, reps * sets, weight,
                        calculateWorkoutXP name reps weight sets⟩] := by
    simp only [logWorkout]
    split_ifs <;> rfl
  refine ⟨happ, fun hsq => ?_⟩
  rw [happ, questWorkoutCompleted_append]
  simp [hsq]

/-- C10 witness: a 10-rep, 3-set squat workout advances quest completion by
30. -/
theorem C10_witness :
    questWorkoutCompleted (logWorkout basePlayer "squat" 10 5 3).1.workouts
      = questWorkoutCompleted basePlayer.workouts + 10 * 3 :=
  (C10_confirmed basePlayer "squat" 10 5 3).2 (by decide)

/-- C6: flee acts on the last element of the battles array; it errors when
that battle is already completed, and after a successful flee (which deducts
exactly 5 health) the last battle is terminal, so an immediate second flee
errors and the 5-health penalty is never applied twice. -/
theorem C6_confirmed (p : Player) (b : Battle) (hlast : p.battles.getLast? = some b) :
    (b.completed = true → battleFlee p = (p, Except.error GameError.noActiveBattle)) ∧
    (b.completed = false →
      (battleFlee p).2 = Except.ok 5 ∧
      (battleFlee p).1.stats.health = p.stats.health - 5 ∧
      (battleFlee p).1.battles.getLast? = some { b with completed := true, fled := true } ∧
      battleFlee ((battleFlee p).1) = ((battleFlee p).1, Except.error GameError.noActiveBattle)) := by
  constructor
  · intro hc
    simp [battleFlee, hlast, hc]
  · intro hc
    have h1 : battleFlee p =
        ({ p with battles := p.battles.dropLast ++ [{ b with completed := true, fled := true }],
                  stats := { p.stats with health := p.stats.health - 5 } },
         Except.ok 5) := by
      simp [battleFlee, hlast, hc]
    refine ⟨by rw [h1], by rw [h1], ?_, ?_⟩
    · rw [h1]
      exact List.getLast?_concat _
    · rw [h1]
      simp [battleFlee, List.getLast?_concat]

/-- C6 witness: fleeing an active battle deducts 5 health once; the second
flee fails, leaving health at the once-deducted value. -/
theorem C6_witness :
    (battleFlee pActive).2 = Except.ok 5 ∧
    (battleFlee pActive).1.stats.health = pActive.stats.health - 5 ∧
    battleFlee ((battleFlee pActive).1)
      = ((battleFlee pActive).1, Except.error GameError.noActiveBattle) := by
  have h := (C6_confirmed pActive bAct (by decide)).2 (by decide)
  exact ⟨h.1, h.2.1, h.2.2.2⟩

/-- C8: whenever one of the fallible operations reports a caller-visible
error, the returned in-memory player record is exactly the input record. -/
theorem C8_confirmed (p : Player) (e : Enemy) (reps weight amount : Int) :
    (∀ err, (battleStart p e).2 = Except.error err → (battleStart p e).1 = p) ∧
    (∀ err, (battleAttack p reps weight).2 = Except.error err →
      (battleAttack p reps weight).1 = p) ∧
    (∀ err, (buyHealth p amount).2 = Except.error err → (buyHealth p amount).1 = p) ∧
    (∀ err, (battleFlee p).2 = Except.error err → (battleFlee p).1 = p) := by
  refine ⟨?_, ?_, ?_, ?_⟩
  · intro err h
    by_cases hh : p.stats.health ≤ 10 <;> simp [battleStart, hh] at h ⊢
  · intro err h
    cases hfind : findLastActive p.battles with
    | none => simp [battleAttack, hfind]
    | some ab =>
      simp only [battleAttack, hfind] at h
      split_ifs at h
  · intro err h
    by_cases hg : p.gold < amount * 10 <;> simp [buyHealth, hg] at h ⊢
  · intro err h
    cases hlast : p.battles.getLast? with
    | none => simp [battleFlee, hlast]
    | some b =>
      by_cases hc : b.completed
      · simp [battleFlee, hlast, hc]
      · rw [battleFlee] at h
        rw [hlast] at h
        simp [hc] at h

/-- C8 witness: a player with low health, no battles, and no gold receives an
error from each operation and is returned unmodified each time. -/
theorem C8_witness :
    (battleStart pBroke enemy0).1 = pBroke ∧
    (battleAttack pBroke 10 5).1 = pBroke ∧
    (buyHealth pBroke 1).1 = pBroke ∧
    (battleFlee pBroke).1 = pBroke := by
  obtain ⟨h1, h2, h3, h4⟩ := C8_confirmed pBroke enemy0 10 5 1
  exact ⟨h1 GameError.healthTooLow rfl,
         h2 GameError.noActiveBattle rfl,
         h3 GameError.insufficientFunds rfl,
         h4 GameError.noActiveBattle rfl⟩

/-- C1, counterexample: the log-water handler adds xp without recomputing the
level, so a player at 99 xp, level 1 (where the invariant holds) who logs one
cup of water ends at 101 xp but still level 1, violating
level = floor(xp / 100) + 1. -/
theorem C1_counterexample :
    p99.level = levelOf p99.xp ∧
    (logWater p99 "2026-10-11" 1).level ≠ levelOf (logWater p99 "2026-10-11" 1).xp := by
  refine ⟨by decide, by decide⟩

/-- C1, amended: the relation level = floor(xp / 100) + 1 is preserved by
log-workout (for nonnegative inputs) and by battle-attack, and the level
formula is monotone in xp; but log-water adds xp while leaving the level
untouched, so it does not maintain the relation. -/
theorem C1_amended (p : Player) (name today : String) (reps weight sets cups : Int)
    (h : p.level = levelOf p.xp) (hr : 0 ≤ reps) (hw : 0 ≤ weight) (hs : 0 ≤ sets) :
    (logWorkout p name reps weight sets).1.level
      = levelOf (logWorkout p name reps weight sets).1.xp ∧
    (∀ p2 out, battleAttack p reps weight = (p2, Except.ok out) →
      p2.level = levelOf p2.xp) ∧
    (∀ x y : Int, x ≤ y → levelOf x ≤ levelOf y) ∧
    (logWater p today cups).level = p.level ∧
    (logWater p today cups).xp = p.xp + 2 * cups := by
  have hxp := calculateWorkoutXP_nonneg name hr hw hs
  have hmono := levelOf_mono
    (show p.xp ≤ p.xp + calculateWorkoutXP name reps weight sets by omega)
  refine ⟨?_, ?_, fun x y hxy => levelOf_mono hxy, rfl, rfl⟩
  · simp only [logWorkout]
    split_ifs
    all_goals simp
    all_goals omega
  · intro p2 out hEq
    cases hfind : findLastActive p.battles with
    | none => simp [battleAttack, hfind] at hEq
    | some ab =>
      have hrw := rewardFor_xp_nonneg ab.enemyName
      have hmono2 := levelOf_mono
        (show p.xp ≤ p.xp + (rewardFor ab.enemyName).xp by omega)
      simp only [battleAttack, hfind] at hEq
      split_ifs at hEq
      all_goals simp only [Prod.mk.injEq] at hEq
      all_goals obtain ⟨hp2, -⟩ := hEq
      all_goals subst hp2
      all_goals simp
      all_goals omega

/-- C1 witness: the preserved relation and the water-xp award at a concrete
fresh player. -/
theorem C1_witness :
    (logWorkout basePlayer "squat" 10 5 1).1.level
      = levelOf (logWorkout basePlayer "squat" 10 5 1).1.xp ∧
    (logWater basePlayer "2026-10-11" 2).xp = basePlayer.xp + 2 * 2 := by
  obtain ⟨h1, -, -, -, h5⟩ :=
    C1_amended basePlayer "squat" "2026-10-11" 10 5 1 2 (by decide) (by decide)
      (by decide) (by decide)
  exact ⟨h1, h5⟩

/-- C4, counterexample: fleeing with 3 health succeeds and leaves health at
-2, so the flee operation can drive health below 0. -/
theorem C4_counterexample :
    (battleFlee pLowHealth).2 = Except.ok 5 ∧
    (battleFlee pLowHealth).1.stats.health = -2 := by
  refine ⟨rfl, by decide⟩

/-- C4, amended: battle-attack (which clamps), battle-start, buy-health (for
nonnegative amounts), and the logging endpoints all keep health at least 0,
but a successful flee deducts a flat unclamped 5, so it can push health
negative whenever health is below 5. -/
theorem C4_amended (p : Player) (e : Enemy) (name today : String)
    (reps weight sets cups amount : Int)
    (h : 0 ≤ p.stats.health) (ha : 0 ≤ amount) :
    0 ≤ (battleAttack p reps weight).1.stats.health ∧
    0 ≤ (battleStart p e).1.stats.health ∧
    0 ≤ (buyHealth p amount).1.stats.health ∧
    0 ≤ (logWater p today cups).stats.health ∧
    0 ≤ (logWorkout p name reps weight sets).1.stats.health ∧
    (∀ p2 n, battleFlee p = (p2, Except.ok n) →
      p2.stats.health = p.stats.health - 5) := by
  refine ⟨?_, ?_, ?_, h, ?_, ?_⟩
  · cases hfind : findLastActive p.battles with
    | none => simpa [battleAttack, hfind] using h
    | some ab =>
      simp only [battleAttack, hfind]
      split_ifs
      all_goals simp
      all_goals omega
  · by_cases hh : p.stats.health ≤ 10 <;> simpa [battleStart, hh] using h
  · by_cases hg : p.gold < amount * 10 <;> simp [buyHealth, hg] <;> omega
  · simp only [logWorkout]
    split_ifs <;> simpa using h
  · intro p2 n hEq
    cases hlast : p.battles.getLast? with
    | none => simp [battleFlee, hlast] at hEq
    | some b =>
      by_cases hc : b.completed
      · simp [battleFlee, hlast, hc] at hEq
      · simp only [battleFlee, hlast] at hEq
        rw [if_neg (by simp [hc])] at hEq
        simp only [Prod.mk.injEq] at hEq
        obtain ⟨hp2, -⟩ := hEq
        subst hp2
        rfl

/-- C4 witness: the invariant conjuncts at a concrete healthy player and the
concrete negative-health flee outcome. -/
theorem C4_witness :
    0 ≤ (battleAttack pActive 10 5).1.stats.health ∧
    0 ≤ (buyHealth basePlayer 5).1.stats.health ∧
    (∀ p2 n, battleFlee pActive = (p2, Except.ok n) →
      p2.stats.health = pActive.stats.health - 5) := by
  obtain ⟨h1, -, h3, -, -, h6⟩ :=
    C4_amended pActive enemy0 "squat" "2026-10-11" 10 5 1 1 5 (by decide) (by decide)
  obtain ⟨-, -, h3b, -, -, -⟩ :=
    C4_amended basePlayer enemy0 "squat" "2026-10-11" 10 5 1 1 5 (by decide) (by decide)
  exact ⟨h1, h3b, h6⟩

/-- C5: when the selected active battle's enemy HP does not survive the hit,
the attack marks that battle completed and victorious (the victory check runs
before the defeat check, so this holds even if the player also reaches 0 HP),
adds the matched enemy reward (with the 50 xp, 25 gold default when an enemy
record carries no reward) to xp and gold exactly once within the call, and
completed battles are never selected again by the attack target selector. -/
theorem C5_confirmed (p : Player) (reps weight : Int) (ab : Battle)
    (hab : findLastActive p.battles = some ab)
    (hkill : ab.enemyHP - attackDamage p reps weight ≤ 0) :
    ∃ p2 out, battleAttack p reps weight = (p2, Except.ok out) ∧
      out.battle.completed = true ∧
      out.battle.victory = true ∧
      out.result = some true ∧
      p2.xp = p.xp + (rewardFor ab.enemyName).xp ∧
      p2.gold = p.gold + (rewardFor ab.enemyName).gold ∧
      (∀ en : Enemy, en.reward = none → rewardOfEnemy en = ⟨50, 25⟩) ∧
      (∀ bs b2, findLastActive bs = some b2 → b2.completed = false) := by
  have hpos : (if ab.enemyHP - attackDamage p reps weight < 0 then (0:Int)
      else ab.enemyHP - attackDamage p reps weight) ≤ 0 := by
    split_ifs <;> omega
  simp only [battleAttack, hab]
  rw [if_pos hpos]
  by_cases hl : levelOf (p.xp + (rewardFor ab.enemyName).xp) > p.level <;>
    simp only [hl, if_pos, if_neg, if_true, if_false] <;>
    exact ⟨_, _, rfl, rfl, rfl, rfl, rfl, rfl,
      fun en hen => by simp [rewardOfEnemy, hen],
      fun bs b2 hb2 => findLastActive_not_completed hb2⟩

/-- C5 witness: a 15-damage hit on a 5-HP Lazy Dragon yields victory and the
dragon reward of 100 xp and 50 gold. -/
theorem C5_witness :
    ∃ p2 out, battleAttack pKill 100 1 = (p2, Except.ok out) ∧
      out.battle.completed = true ∧
      out.battle.victory = true ∧
      out.result = some true ∧
      p2.xp = pKill.xp + (rewardFor "The Lazy Dragon").xp ∧
      p2.gold = pKill.gold + (rewardFor "The Lazy Dragon").gold := by
  obtain ⟨p2, out, h1, h2, h3, h4, h5, h6, -, -⟩ :=
    C5_confirmed pKill 100 1 { bAct with enemyHP := 5 } (by decide) (by decide)
  exact ⟨p2, out, h1, h2, h3, h4, h5, h6⟩

end FitQuest
